import Mathlib

/-!
Verification development for `turning_sheet.py`, an estimator of machining
pass times and per-part costs.  Python floats are modelled as real numbers;
a Python result that is not a finite real number (the script produces
`nan`, `±inf`, or a complex value in its degenerate corners, never an
exception) is modelled as `none : Option ℝ`.
-/

/-- Operation choices per pass (the `OPS` list of the script). -/
inductive Op
  | turn_thread
  | bore_drill_tap_ream
  | face_thread
  | milling
  | cutoff
  | other
  deriving DecidableEq

/-- Lines 90-97: clamp the rough pass's ending diameter into
`[db_final, da_start]`. -/
noncomputable def clamp_db_rough (db_r db_final da_start : ℝ) : ℝ :=
  if db_r < db_final then db_final
  else if db_r > da_start then da_start
  else db_r

/-- Lines 99-117, `op_area_volume`: per-operation cutting area `Am` and
removed volume `Vm`.  The `cutoff`/`other` fallback uses the constant
`1e-9` as the source does. -/
noncomputable def op_area_volume (op : Op) (lw da_in db_used : ℝ) : ℝ × ℝ :=
  match op with
  | Op.turn_thread =>
      (Real.pi * lw * db_used, (Real.pi / 4) * lw * (da_in ^ 2 - db_used ^ 2))
  | Op.bore_drill_tap_ream =>
      (Real.pi * lw * da_in, (Real.pi / 4) * lw * (db_used ^ 2 - da_in ^ 2))
  | Op.face_thread =>
      ((Real.pi / 2) * da_in * (da_in - db_used),
       (Real.pi / 2) * lw * da_in * (da_in - db_used))
  | Op.milling =>
      (lw * da_in, lw * da_in * db_used)
  | Op.cutoff =>
      (Real.pi * lw * max db_used 1e-9,
       (Real.pi / 4) * lw * max (da_in ^ 2 - db_used ^ 2) 0)
  | Op.other =>
      (Real.pi * lw * max db_used 1e-9,
       (Real.pi / 4) * lw * max (da_in ^ 2 - db_used ^ 2) 0)

/-- Line 121: `tmp_s = 60.0 * ps * Vm / Pm if Pm > 0 else float("nan")`.
`none` is the `nan` marker. -/
noncomputable def tmp_s (ps Vm Pm : ℝ) : Option ℝ :=
  if 0 < Pm then some (60 * ps * Vm / Pm) else none

/-- Line 122: `tmc_s = 60.0 * (Am / vf)`.  `vf = 0` is excluded by the
caller contract (the prompt loop only accepts positive numbers). -/
noncomputable def tmc_s (Am vf : ℝ) : ℝ := 60 * (Am / vf)

/-- Lines 124-128, the wear-correction selection applied to an already
computed `tmp` and `tmc`.  Branches, following the float semantics of the
source line by line:
* `tmp = none` (`nan`, from `Pm ≤ 0`): the `isnan` guard fails, the else
  branch runs with `ratio = inf` and `nan * (1 + …) = nan` — `none`.
* `some t` with `t ≤ tmc`: `tm = tmc / (1 - n)`.
* `some t`, `t > tmc`, `t ≤ 0`: Python's `tmp_s and tmp_s > 0` is falsy,
  `ratio = inf`; `t * (1 + c·inf)` is `-inf` for `t < 0` and `0 * inf = nan`
  for `t = 0` — not a finite real, `none`.
* `some t`, `t > tmc`, `t > 0`, `tmc / t < 0`: Python's float power of a
  negative base leaves the reals (a complex result except for integral
  exponents) — `none`.
* otherwise `tm = t * (1 + (n/(1-n)) * (tmc/t) ^ (1/n))`. -/
noncomputable def tm_from (tmp : Option ℝ) (tmc n : ℝ) : Option ℝ :=
  match tmp with
  | some t =>
      if t ≤ tmc then some (tmc / (1 - n))
      else if 0 < t then
        if 0 ≤ tmc / t then
          some (t * (1 + n / (1 - n) * (tmc / t) ^ (1 / n : ℝ)))
        else none
      else none
  | none => none

/-- Lines 119-128: the wear-corrected time `tm_s` of `compute_times`. -/
noncomputable def tm_s (Am Vm ps Pm n vf : ℝ) : Option ℝ :=
  tm_from (tmp_s ps Vm Pm) (tmc_s Am vf) n

/-- Line 130: extra-travel correction, `+5.4` seconds for the four listed
operations, identity otherwise (adding `5.4` to `nan`/`inf` keeps it
non-finite, hence `Option.map`). -/
noncomputable def tm_prime_s (op : Op) (tm : Option ℝ) : Option ℝ :=
  if op = Op.turn_thread ∨ op = Op.face_thread ∨
     op = Op.bore_drill_tap_ream ∨ op = Op.cutoff then
    Option.map (fun x => x + 5.4) tm
  else tm

/-- Lines 119-131, `compute_times`: `(tmc_s, tmp_s, tm_s, tm_prime_s)`. -/
noncomputable def compute_times (op : Op) (Am Vm ps Pm n vf : ℝ) :
    ℝ × Option ℝ × Option ℝ × Option ℝ :=
  (tmc_s Am vf, tmp_s ps Vm Pm, tm_s Am Vm ps Pm n vf,
   tm_prime_s op (tm_s Am Vm ps Pm n vf))

/-- Lines 208-214: the `db` dimension actually used by the rough pass —
the raw depth input for milling, otherwise the clamped diameter input. -/
noncomputable def rough_db_used (op_r : Op) (db_input dbf da0 : ℝ) : ℝ :=
  if op_r = Op.milling then db_input else clamp_db_rough db_input dbf da0

/-- Lines 198 and 222-223: `db_rough` starts as `None` and is recorded
only when a rough pass ran with a non-milling operation. -/
noncomputable def db_rough_record (rough : Bool) (op_r : Op)
    (db_input dbf da0 : ℝ) : Option ℝ :=
  if rough ∧ op_r ≠ Op.milling then
    some (rough_db_used op_r db_input dbf da0)
  else none

/-- Line 239: `da_f = db_rough if (rough and db_rough is not None) else da0`
for a non-milling finish pass. -/
noncomputable def finish_da (rough : Bool) (op_r : Op)
    (db_input dbf da0 : ℝ) : ℝ :=
  (db_rough_record rough op_r db_input dbf da0).getD da0

/-- Line 184: cylindrical stock volume from the FULL workpiece length. -/
noncomputable def Vstock_in3 (da0 l_full : ℝ) : ℝ :=
  (Real.pi / 4) * da0 ^ 2 * l_full

/-- Line 185: stock weight. -/
noncomputable def Mstock_lb (density da0 l_full : ℝ) : ℝ :=
  density * Vstock_in3 da0 l_full

/-- Line 263: material cost per part. -/
noncomputable def material_cost_per_part (cost_per_lb M : ℝ) : ℝ :=
  cost_per_lb * M

/-- Line 264: setup cost per part, amortized over the batch. -/
noncomputable def setup_cost_per_part (hourly_rate setup_hr num_parts : ℝ) : ℝ :=
  hourly_rate * setup_hr / num_parts

/-- Line 265: non-productive seconds. -/
noncomputable def nonprod_seconds (load_s toolpos_s : ℝ) (rough finish : Bool) : ℝ :=
  load_s + (if rough then toolpos_s else 0) + (if finish then toolpos_s else 0)

/-- Line 266: non-productive cost per part. -/
noncomputable def nonprod_cost_per_part (hourly_rate load_s toolpos_s : ℝ)
    (rough finish : Bool) : ℝ :=
  hourly_rate * (nonprod_seconds load_s toolpos_s rough finish / 3600)

/-- Line 267: total machining seconds over the included passes. -/
noncomputable def total_machining_seconds (rough finish : Bool)
    (tprime_r tprime_f : ℝ) : ℝ :=
  (if rough then tprime_r else 0) + (if finish then tprime_f else 0)

/-- Line 268: machining cost per part. -/
noncomputable def machining_cost_per_part (hourly_rate : ℝ)
    (rough finish : Bool) (tprime_r tprime_f : ℝ) : ℝ :=
  hourly_rate * (total_machining_seconds rough finish tprime_r tprime_f / 3600)

/-- Line 269: total cost per part. -/
noncomputable def total_cost_per_part (cost_per_lb M hourly_rate setup_hr
    num_parts load_s toolpos_s : ℝ) (rough finish : Bool)
    (tprime_r tprime_f : ℝ) : ℝ :=
  material_cost_per_part cost_per_lb M +
    setup_cost_per_part hourly_rate setup_hr num_parts +
    nonprod_cost_per_part hourly_rate load_s toolpos_s rough finish +
    machining_cost_per_part hourly_rate rough finish tprime_r tprime_f

/-- Lines 263-269 assembled: the per-part cost summary
`(material, setup, nonprod, machining, total)`. -/
noncomputable def cost_summary (cost_per_lb hourly_rate num_parts M setup_hr
    load_s toolpos_s : ℝ) (rough finish : Bool)
    (tprime_r tprime_f : ℝ) : ℝ × ℝ × ℝ × ℝ × ℝ :=
  (material_cost_per_part cost_per_lb M,
   setup_cost_per_part hourly_rate setup_hr num_parts,
   nonprod_cost_per_part hourly_rate load_s toolpos_s rough finish,
   machining_cost_per_part hourly_rate rough finish tprime_r tprime_f,
   total_cost_per_part cost_per_lb M hourly_rate setup_hr num_parts load_s
     toolpos_s rough finish tprime_r tprime_f)

/-! Helper lemmas shared by the claim theorems. -/

theorem tmp_s_of_pos (ps Vm Pm : ℝ) (h : 0 < Pm) :
    tmp_s ps Vm Pm = some (60 * ps * Vm / Pm) := by
  simp [tmp_s, h]

theorem tmp_s_of_nonpos (ps Vm Pm : ℝ) (h : Pm ≤ 0) :
    tmp_s ps Vm Pm = none := by
  simp [tmp_s, not_lt.mpr h]

theorem tm_from_none (tmc n : ℝ) : tm_from none tmc n = none := rfl

theorem tm_from_some_le (t tmc n : ℝ) (h : t ≤ tmc) :
    tm_from (some t) tmc n = some (tmc / (1 - n)) := by
  simp [tm_from, h]

theorem tm_from_some_gt (t tmc n : ℝ) (hgt : tmc < t) (htmc : 0 ≤ tmc) :
    tm_from (some t) tmc n =
      some (t * (1 + n / (1 - n) * (tmc / t) ^ (1 / n : ℝ))) := by
  have ht : 0 < t := lt_of_le_of_lt htmc hgt
  have hr : 0 ≤ tmc / t := div_nonneg htmc ht.le
  simp [tm_from, not_le.mpr hgt, ht, hr]

theorem tmc_s_nonneg (Am vf : ℝ) (hAm : 0 ≤ Am) (hvf : 0 < vf) :
    0 ≤ tmc_s Am vf :=
  mul_nonneg (by norm_num) (div_nonneg hAm hvf.le)

/-! Claim theorems. -/

/-- C1: for every valid pass input (0 < n < 1, V_f > 0, and a nonnegative
cutting area, which the operation table guarantees under the documented
diameter invariant), the wear-corrected time follows the selection rule:
if t_mp is defined (P_m > 0) and t_mp ≤ t_mc then t_m = t_mc / (1 − n);
if t_mp is defined and exceeds t_mc the power-limited correction
t_m = t_mp · (1 + (n/(1−n)) · (t_mc/t_mp)^(1/n)) applies; and when t_mp is
undefined (P_m ≤ 0) the infinite-ratio power-limited correction dominates
and the result is non-finite (`none`). -/
theorem C1_wear_correction_rule (Am Vm ps Pm n vf : ℝ)
    (hn0 : 0 < n) (hn1 : n < 1) (hvf : 0 < vf) (hAm : 0 ≤ Am) :
    (0 < Pm → 60 * ps * Vm / Pm ≤ tmc_s Am vf →
      tm_s Am Vm ps Pm n vf = some (tmc_s Am vf / (1 - n))) ∧
    (0 < Pm → tmc_s Am vf < 60 * ps * Vm / Pm →
      tm_s Am Vm ps Pm n vf =
        some ((60 * ps * Vm / Pm) *
          (1 + n / (1 - n) *
            (tmc_s Am vf / (60 * ps * Vm / Pm)) ^ (1 / n : ℝ)))) ∧
    (Pm ≤ 0 → tm_s Am Vm ps Pm n vf = none) := by
  refine ⟨fun hPm hle => ?_, fun hPm hgt => ?_, fun hPm => ?_⟩
  · rw [tm_s, tmp_s_of_pos _ _ _ hPm, tm_from_some_le _ _ _ hle]
  · rw [tm_s, tmp_s_of_pos _ _ _ hPm,
      tm_from_some_gt _ _ _ hgt (tmc_s_nonneg _ _ hAm hvf)]
  · rw [tm_s, tmp_s_of_nonpos _ _ _ hPm, tm_from_none]

/-- Witness for C1 at Am = 1, Vm = 1, ps = 0, Pm = 1, n = 1/2, vf = 60:
t_mp = 0 ≤ t_mc = 1, so the power-limited-safe branch yields
t_mc / (1 − n). -/
theorem C1_wear_correction_rule_witness :
    tm_s 1 1 0 1 (1/2) 60 = some (tmc_s 1 60 / (1 - 1/2)) :=
  (C1_wear_correction_rule 1 1 0 1 (1/2) 60 (by norm_num) (by norm_num)
      (by norm_num) (by norm_num)).1
    (by norm_num) (by rw [tmc_s]; norm_num)

/-- C2: the Pass Calculator's area/volume pairs follow the operation table
exactly for every operation kind: turning, boring, facing, milling, and
the cutoff/other fallback with its small positive constant ε = 1e-9. -/
theorem C2_area_volume_table (lw da db : ℝ) :
    op_area_volume Op.turn_thread lw da db =
      (Real.pi * lw * db, (Real.pi / 4) * lw * (da ^ 2 - db ^ 2)) ∧
    op_area_volume Op.bore_drill_tap_ream lw da db =
      (Real.pi * lw * da, (Real.pi / 4) * lw * (db ^ 2 - da ^ 2)) ∧
    op_area_volume Op.face_thread lw da db =
      ((Real.pi / 2) * da * (da - db), (Real.pi / 2) * lw * da * (da - db)) ∧
    op_area_volume Op.milling lw da db = (lw * da, lw * da * db) ∧
    (0 < (1e-9 : ℝ)) ∧
    op_area_volume Op.cutoff lw da db =
      (Real.pi * lw * max db 1e-9,
       (Real.pi / 4) * lw * max (da ^ 2 - db ^ 2) 0) ∧
    op_area_volume Op.other lw da db =
      (Real.pi * lw * max db 1e-9,
       (Real.pi / 4) * lw * max (da ^ 2 - db ^ 2) 0) :=
  ⟨rfl, rfl, rfl, rfl, by norm_num, rfl, rfl⟩

/-- C3: with P_m ≤ 0 the computation raises nothing — t_mp is marked
undefined (`none`, the NaN marker) instead of computed, and the
wear-correction branch propagates it to a non-finite wear-corrected time;
every case of `tm_s` returns a value, never an error. -/
theorem C3_nonpositive_power_degrades (Am Vm ps Pm n vf : ℝ) (hPm : Pm ≤ 0) :
    tmp_s ps Vm Pm = none ∧ tm_s Am Vm ps Pm n vf = none := by
  refine ⟨tmp_s_of_nonpos _ _ _ hPm, ?_⟩
  rw [tm_s, tmp_s_of_nonpos _ _ _ hPm, tm_from_none]

/-- Witness for C3 at P_m = 0. -/
theorem C3_nonpositive_power_degrades_witness :
    tmp_s 1 1 0 = none ∧ tm_s 1 1 1 0 (1/2) 1 = none :=
  C3_nonpositive_power_degrades 1 1 1 0 (1/2) 1 (by norm_num)

/-- C4: the travel correction adds exactly 5.4 seconds for the
turning/facing/boring/cutoff family and leaves the time unchanged for
milling and "other". -/
theorem C4_travel_correction (t : ℝ) (tmo : Option ℝ) :
    tm_prime_s Op.turn_thread (some t) = some (t + 5.4) ∧
    tm_prime_s Op.face_thread (some t) = some (t + 5.4) ∧
    tm_prime_s Op.bore_drill_tap_ream (some t) = some (t + 5.4) ∧
    tm_prime_s Op.cutoff (some t) = some (t + 5.4) ∧
    tm_prime_s Op.milling tmo = tmo ∧
    tm_prime_s Op.other tmo = tmo := by
  refine ⟨?_, ?_, ?_, ?_, ?_, ?_⟩ <;> simp [tm_prime_s]

/-- C5: with final_db ≤ start_da, the clamp returns the nearest bound for
a value outside `[final_db, start_da]` and is the identity inside. -/
theorem C5_clamp_nearest_bound (db_r db_final da_start : ℝ)
    (hb : db_final ≤ da_start) :
    (db_r < db_final → clamp_db_rough db_r db_final da_start = db_final) ∧
    (da_start < db_r → clamp_db_rough db_r db_final da_start = da_start) ∧
    (db_final ≤ db_r → db_r ≤ da_start →
      clamp_db_rough db_r db_final da_start = db_r) := by
  unfold clamp_db_rough
  refine ⟨fun h => by rw [if_pos h], fun h => ?_, fun h1 h2 => ?_⟩
  · rw [if_neg (not_lt.mpr (hb.trans h.le)), if_pos h]
  · rw [if_neg (not_lt.mpr h1), if_neg (not_lt.mpr h2)]

/-- Witness for C5: 3 is above the interval [0, 2] and clamps to 2. -/
theorem C5_clamp_nearest_bound_witness : clamp_db_rough 3 0 2 = 2 :=
  (C5_clamp_nearest_bound 3 0 2 (by norm_num)).2.1 (by norm_num)

/-- C6: when a rough pass ran (with a non-milling operation, the case in
which the spec defines its ending diameter), the finish pass starts from
the rough pass's possibly clamped ending diameter; with no rough pass the
finish pass starts from the session's starting diameter da0. -/
theorem C6_finish_start_chained (rough : Bool) (op_r : Op)
    (db_input dbf da0 : ℝ) :
    (rough = true → op_r ≠ Op.milling →
      finish_da rough op_r db_input dbf da0 =
        clamp_db_rough db_input dbf da0) ∧
    (rough = false → finish_da rough op_r db_input dbf da0 = da0) := by
  constructor
  · intro hr hm
    subst hr
    simp [finish_da, db_rough_record, rough_db_used, hm]
  · intro hr
    subst hr
    simp [finish_da, db_rough_record]

/-- Witness for C6: a rough turn pass with db entered below the final
diameter chains the clamped value into the finish pass. -/
theorem C6_finish_start_chained_witness :
    finish_da true Op.turn_thread 1 0 2 = clamp_db_rough 1 0 2 :=
  (C6_finish_start_chained true Op.turn_thread 1 0 2).1 rfl (by decide)

/-- C7: stock weight is density × (π/4)·da² × the FULL stock length (the
working length lw is not an input of the weight at all), and material cost
per part is cost_per_weight × stock_weight. -/
theorem C7_stock_weight_material_cost (density da0 l_full cost_per_lb : ℝ) :
    Mstock_lb density da0 l_full =
      density * ((Real.pi / 4) * da0 ^ 2 * l_full) ∧
    material_cost_per_part cost_per_lb (Mstock_lb density da0 l_full) =
      cost_per_lb * Mstock_lb density da0 l_full :=
  ⟨rfl, rfl⟩

/-- C8: in the cost summary the material component does not depend on the
batch part count, while the setup component equals
hourly_rate × setup_hours / part_count and scales as 1/part_count. -/
theorem C8_material_invariant_setup_scaling (cost_per_lb hourly_rate M
    setup_hr load_s toolpos_s : ℝ) (rough finish : Bool)
    (tprime_r tprime_f p k : ℝ) :
    (cost_summary cost_per_lb hourly_rate p M setup_hr load_s toolpos_s
        rough finish tprime_r tprime_f).1 =
      (cost_summary cost_per_lb hourly_rate k M setup_hr load_s toolpos_s
        rough finish tprime_r tprime_f).1 ∧
    (cost_summary cost_per_lb hourly_rate p M setup_hr load_s toolpos_s
        rough finish tprime_r tprime_f).2.1 =
      hourly_rate * setup_hr / p ∧
    setup_cost_per_part hourly_rate setup_hr (k * p) =
      setup_cost_per_part hourly_rate setup_hr p / k := by
  refine ⟨rfl, rfl, ?_⟩
  unfold setup_cost_per_part
  rw [mul_comm k p, ← div_div]

/-- C9: a milling rough pass records no ending diameter for chaining, and
a subsequent non-milling finish pass starts from the session's original
starting diameter da0. -/
theorem C9_milling_rough_no_chain (db_input dbf da0 : ℝ) :
    db_rough_record true Op.milling db_input dbf da0 = none ∧
    finish_da true Op.milling db_input dbf da0 = da0 := by
  constructor <;> simp [finish_da, db_rough_record]

/-- C10: for every valid pass input with positive power and nonnegative
area and volume, the wear-corrected time is defined and never falls below
the recommended-condition time t_mc. -/
theorem C10_wear_time_ge_recommended (Am Vm ps Pm n vf : ℝ)
    (hn0 : 0 < n) (hn1 : n < 1) (hvf : 0 < vf) (hPm : 0 < Pm)
    (hAm : 0 ≤ Am) (hVm : 0 ≤ Vm) :
    ∃ v, tm_s Am Vm ps Pm n vf = some v ∧ tmc_s Am vf ≤ v := by
  have hc := tmc_s_nonneg Am vf hAm hvf
  have h1n : 0 < 1 - n := by linarith
  by_cases hle : 60 * ps * Vm / Pm ≤ tmc_s Am vf
  · refine ⟨tmc_s Am vf / (1 - n), ?_, ?_⟩
    · rw [tm_s, tmp_s_of_pos _ _ _ hPm, tm_from_some_le _ _ _ hle]
    · rw [le_div_iff h1n]
      nlinarith [mul_nonneg hc hn0.le]
  · push_neg at hle
    have ht : 0 < 60 * ps * Vm / Pm := lt_of_le_of_lt hc hle
    refine ⟨(60 * ps * Vm / Pm) *
      (1 + n / (1 - n) *
        (tmc_s Am vf / (60 * ps * Vm / Pm)) ^ (1 / n : ℝ)), ?_, ?_⟩
    · rw [tm_s, tmp_s_of_pos _ _ _ hPm, tm_from_some_gt _ _ _ hle hc]
    · have hr : (0:ℝ) ≤ (tmc_s Am vf / (60 * ps * Vm / Pm)) ^ (1 / n : ℝ) :=
        Real.rpow_nonneg (div_nonneg hc ht.le) _
      have hco : (0:ℝ) ≤ n / (1 - n) := div_nonneg hn0.le h1n.le
      have hstep : 60 * ps * Vm / Pm ≤ (60 * ps * Vm / Pm) *
          (1 + n / (1 - n) *
            (tmc_s Am vf / (60 * ps * Vm / Pm)) ^ (1 / n : ℝ)) :=
        le_mul_of_one_le_right ht.le (by nlinarith)
      linarith

/-- Witness for C10 at Am = 1, Vm = 1, ps = 1, Pm = 1, n = 1/2, vf = 60. -/
theorem C10_wear_time_ge_recommended_witness :
    ∃ v, tm_s 1 1 1 1 (1/2) 60 = some v ∧ tmc_s 1 60 ≤ v :=
  C10_wear_time_ge_recommended 1 1 1 1 (1/2) 60 (by norm_num) (by norm_num)
    (by norm_num) (by norm_num) (by norm_num) (by norm_num)
